import Mathlib

/-
Verification development for the url_to_metadata pipeline
(src/url_to_metadata.py).

Shallow embedding conventions:
  * Python strings are Lean `String`; character classes are Boolean
    predicates on `Char`.
  * The fixed extraction regex
    (978[0-9]\x7b10\x7d)|(B[A-Z0-9]\x7b9\x7d)|([0-9]\x7b9\x7d[A-Z0-9]\x7b1\x7d)
    is modelled directly: each alternative is a fixed-length sequence of
    character classes, so Python re.search on it is "scan positions left to
    right, at each position try the alternatives in order, the first
    alternative that matches wins" with no backtracking choice.
  * The on-disk pickle cache is a function `String → Option String`
    (the mapping loaded at start / persisted at the end); the HTTP
    resolver requests.head is an oracle `net : String → Option String`
    (`none` = any request failure).  The warehouse (pd.read_sql) is an
    oracle `runQuery : String → List AvalonRow`.
  * Fallible Python code returns `Except PyErr`; an uncaught exception is
    `Except.error`.
  * tqdm and print statements are observability only and are not modelled.
-/

/-- Character class [0-9]. -/
def isDigit (c : Char) : Bool := 48 ≤ c.toNat && c.toNat ≤ 57

/-- Character class [A-Z]. -/
def isUpperAZ (c : Char) : Bool := 65 ≤ c.toNat && c.toNat ≤ 90

/-- Character class [A-Z0-9]. -/
def isAZ09 (c : Char) : Bool := isDigit c || isUpperAZ c

/-- Match a fixed-length sequence of character classes at the head of the
input, returning the consumed characters and the rest. -/
def matchSeq : List (Char → Bool) → List Char → Option (List Char × List Char)
  | [], cs => some ([], cs)
  | _ :: _, [] => none
  | p :: ps, c :: cs =>
    if p c then (matchSeq ps cs).map (fun mr => (c :: mr.1, mr.2)) else none

/-- Alternative 1 of the regex: 978[0-9] repeated 10 more times
(a 13-digit sequence starting with 978). -/
def alt1preds : List (Char → Bool) :=
  [fun c => c == '9', fun c => c == '7', fun c => c == '8'] ++ List.replicate 10 isDigit

/-- Alternative 2 of the regex: B followed by 9 characters of [A-Z0-9]. -/
def alt2preds : List (Char → Bool) :=
  (fun c => c == 'B') :: List.replicate 9 isAZ09

/-- Alternative 3 of the regex: 9 digits followed by 1 character of [A-Z0-9]. -/
def alt3preds : List (Char → Bool) :=
  List.replicate 9 isDigit ++ [isAZ09]

/-- Try the three alternatives, in order, at the current position.
Python alternation takes the first alternative that matches, not the
longest match. -/
def matchAlts (cs : List Char) : Option (List Char) :=
  match matchSeq alt1preds cs with
  | some (m, _) => some m
  | none =>
    match matchSeq alt2preds cs with
    | some (m, _) => some m
    | none =>
      match matchSeq alt3preds cs with
      | some (m, _) => some m
      | none => none

/-- Python re.search: scan starting positions left to right, return the
first (leftmost) match.  Every alternative consumes at least one
character, so the empty input has no match. -/
def reSearch : List Char → Option (List Char)
  | [] => none
  | c :: cs =>
    match matchAlts (c :: cs) with
    | some m => some m
    | none => reSearch cs

/-- re.search of the extraction regex on a URL string; `some m` is
match[0], the matched token. -/
def search (s : String) : Option String :=
  (reSearch s.data).map String.mk

/-- A list of characters satisfies a sequence of character classes
pointwise (same length, each class accepts its character). -/
def sat : List (Char → Bool) → List Char → Bool
  | [], [] => true
  | p :: ps, c :: cs => p c && sat ps cs
  | _, _ => false

/-- Shape of regex alternative 1: a 13-digit token starting with 978. -/
def isbn13Shape (t : String) : Bool := sat alt1preds t.data

/-- Shape of regex alternative 2: B followed by 9 characters of [A-Z0-9]. -/
def asinBShape (t : String) : Bool := sat alt2preds t.data

/-- Shape of regex alternative 3: 9 digits followed by one [A-Z0-9]. -/
def nineDigitShape (t : String) : Bool := sat alt3preds t.data

/-- Python exceptions that the embedded pipeline can raise. -/
inductive PyErr where
  | typeError
  | valueError
  deriving DecidableEq, Repr

/-- get_asinisbns (src lines 72-89): for each (link, longlink) pair run
re.search; on a match append (link, match[0]).  The source wraps the
append in `try ... except IndexError: continue`, but when re.search finds
no match it returns None and subscripting None raises TypeError, which
`except IndexError` does NOT catch - so a no-match pair aborts the whole
call rather than being skipped. -/
def get_asinisbns : List (String × String) → Except PyErr (List (String × String))
  | [] => .ok []
  | (link, longlink) :: rest =>
    match search longlink with
    | none => .error .typeError
    | some m =>
      match get_asinisbns rest with
      | .ok out => .ok ((link, m) :: out)
      | .error e => .error e

/-- The dict returned by get_inputs: a list of ASIN pairs and a list of
ISBN pairs. -/
structure Groups where
  asin : List (String × String)
  isbn : List (String × String)
  deriving DecidableEq, Repr

/-- get_inputs (src lines 92-109): partition (link, identifier) pairs by
identifier length; 10 goes to the asin list, 13 to the isbn list, any
other length is skipped.  Order of each list follows input order. -/
def get_inputs : List (String × String) → Groups
  | [] => ⟨[], []⟩
  | p :: rest =>
    let g := get_inputs rest
    if p.2.length = 10 then ⟨p :: g.asin, g.isbn⟩
    else if p.2.length = 13 then ⟨g.asin, p :: g.isbn⟩
    else g

/-- One iteration of the get_long_links loop body (src lines 50-58):
look the link up in the cache dict; on a miss issue the network request
(requests.head with redirects, `net`); a request failure skips the link. -/
def resolveOne (cache net : String → Option String) (link : String) :
    Option (String × String) :=
  match cache link with
  | some longlink => some (link, longlink)
  | none =>
    match net link with
    | some longlink => some (link, longlink)
    | none => none

/-- The Python dict comprehension over a pair list: later pairs overwrite
earlier ones with the same key. -/
def dictOf (l : List (String × String)) : String → Option String :=
  l.foldl (fun d p k => if k = p.1 then some p.2 else d k) (fun _ => none)

/-- Result of get_long_links: the (link, longlink) output list, the cache
as persisted back to disk, and the list of links for which a network
request was issued (requests.head is called exactly on cache misses). -/
structure ResolveResult where
  pairs : List (String × String)
  cacheOut : String → Option String
  requested : List String

/-- get_long_links (src lines 36-69): resolve each link via cache or
network in input order, dropping failures; then merge the newly resolved
pairs into the cache dict (new entries win) and persist it. -/
def get_long_links (link_list : List String) (cache net : String → Option String) :
    ResolveResult :=
  let longlink_list := link_list.filterMap (resolveOne cache net)
  let requested := link_list.filter (fun link => (cache link).isNone)
  let new_link_dict := dictOf longlink_list
  let link_dict := fun k =>
    match new_link_dict k with
    | some v => some v
    | none => cache k
  ⟨longlink_list, link_dict, requested⟩

/-- A row returned by the warehouse query (src lines 16-32): the selected
columns of TITLE_INFO_DIM. -/
structure AvalonRow where
  isbn_13 : String
  asin : String
  title : String
  author : String
  pub_date : String
  genre : String
  subgenre : String
  division : String
  deriving DecidableEq, Repr

/-- A row of the merged output DataFrame: the original link, the
identifier it was joined on, and the warehouse columns. -/
structure MetaRow where
  link : String
  id : String
  attrs : AvalonRow
  deriving DecidableEq, Repr

/-- The value of column `t` of an avalon row, for the two recognized
join columns. -/
def colVal (r : AvalonRow) (t : String) : String :=
  if t = "ASIN" then r.asin else r.isbn_13

/-- A single-quote character, kept out of string literals. -/
def sglq : String := String.singleton (Char.ofNat 39)

/-- The fixed query template (names["q"], src lines 16-32) up to and
including "AND     ", i.e. everything before the first format slot. -/
def q_head : String :=
  "\n    SELECT DISTINCT\n    \n            ISBN_13,\n            ASIN,\n            TITLE as \"title\",\n            AUTHOR as \"author\",\n            ORIGINAL_PUBLICATION_DATE as \"pub_date\",\n            NIELSEN_CATEGORY as \"genre\",\n            NIELSEN_SUB_CATEGORY as \"subgenre\",\n            DIVISION as \"division\"\n            \n    FROM    \"EDP_PROD\".\"INFO_CORE\".\"TITLE_INFO_DIM\"\n    \n    WHERE   DIVISION not in ("
  ++ sglq ++ "PRH Other" ++ sglq ++ "," ++ sglq ++ "PRH Corporate" ++ sglq
  ++ ")\n    AND     "

/-- names["q"].format(a, b): the template with the column name in the
first slot and the formatted identifier tuple in the second. -/
def q_fmt (a b : String) : String := q_head ++ a ++ " in " ++ b ++ "\n    "

/-- Python repr of an identifier string (no quotes or backslashes occur in
extracted identifiers, so repr is just single-quoting). -/
def pyRepr (s : String) : String := sglq ++ s ++ sglq

/-- Python str() of a tuple of strings: "()" when empty, a trailing comma
for a singleton, ", " separated otherwise. -/
def pyTupleStr : List String → String
  | [] => "()"
  | [x] => "(" ++ pyRepr x ++ ",)"
  | x :: y :: rest =>
    "(" ++ pyRepr x ++ ((y :: rest).foldl (fun acc z => acc ++ ", " ++ pyRepr z) "") ++ ")"

/-- The recognized type tags (src line 119). -/
def id_types : List String := ["ASIN", "ISBN_13"]

/-- get_metadata (src lines 112-129): reject an unrecognized id_type with
ValueError before anything else; otherwise build the query from the
template, the tag and the tuple of identifiers, run it against the
warehouse, and inner-join the resulting rows back onto the (link, id)
pairs by the id_type column. -/
def get_metadata (runQuery : String → List AvalonRow)
    (id_tuple : List (String × String)) (id_type : String) :
    Except PyErr (List MetaRow) :=
  if id_type ∈ id_types then
    let id_input := id_tuple.map Prod.snd
    let query := q_fmt id_type (pyTupleStr id_input)
    let avalon := runQuery query
    .ok (id_tuple.flatMap fun p =>
      (avalon.filter fun r => colVal r id_type = p.2).map fun r => ⟨p.1, p.2, r⟩)
  else .error .valueError

namespace url_to_metadata

/-- get (src lines 132-153): the orchestrator.  Resolve, extract,
classify, then query the warehouse for each non-empty group and
concatenate the ASIN and ISBN result frames.  Namespaced after the source
module because Mathlib already exports a bare `get`. -/
def get (link_list : List String) (cache net : String → Option String)
    (runQuery : String → List AvalonRow) : Except PyErr (List MetaRow) :=
  let l1 := (get_long_links link_list cache net).pairs
  match get_asinisbns l1 with
  | .error e => .error e
  | .ok l2 =>
    let m := get_inputs l2
    match (if m.asin.length > 0 then get_metadata runQuery m.asin "ASIN" else .ok []) with
    | .error e => .error e
    | .ok df_asin =>
      match (if m.isbn.length > 0 then get_metadata runQuery m.isbn "ISBN_13" else .ok []) with
      | .error e => .error e
      | .ok df_isbn => .ok (df_asin ++ df_isbn)

end url_to_metadata

/-! ### Helper lemmas about the regex model -/

theorem matchSeq_spec (ps : List (Char → Bool)) :
    ∀ (cs m r : List Char), matchSeq ps cs = some (m, r) →
      cs = m ++ r ∧ sat ps m = true := by
  induction ps with
  | nil =>
    intro cs m r h
    simp only [matchSeq, Option.some.injEq, Prod.mk.injEq] at h
    obtain ⟨hm, hr⟩ := h
    subst hm; subst hr
    exact ⟨rfl, rfl⟩
  | cons p ps ih =>
    intro cs m r h
    cases cs with
    | nil => simp [matchSeq] at h
    | cons c cs' =>
      simp only [matchSeq] at h
      by_cases hp : p c
      · simp only [hp, if_true, Option.map_eq_some'] at h
        obtain ⟨⟨m', r'⟩, hms, heq⟩ := h
        obtain ⟨hcs, hsat⟩ := ih cs' m' r' hms
        obtain ⟨hm, hr⟩ := Prod.mk.injEq .. ▸ heq
        subst hm; subst hr
        constructor
        · simp [hcs]
        · simp [sat, hp, hsat]
      · simp [hp] at h

theorem sat_matchSeq (ps : List (Char → Bool)) :
    ∀ (m r : List Char), sat ps m = true → matchSeq ps (m ++ r) = some (m, r) := by
  induction ps with
  | nil =>
    intro m r h
    cases m with
    | nil => rfl
    | cons c m' => simp [sat] at h
  | cons p ps ih =>
    intro m r h
    cases m with
    | nil => simp [sat] at h
    | cons c m' =>
      simp only [sat, Bool.and_eq_true] at h
      simp [matchSeq, h.1, ih m' r h.2]

theorem sat_length (ps : List (Char → Bool)) :
    ∀ (m : List Char), sat ps m = true → m.length = ps.length := by
  induction ps with
  | nil =>
    intro m h
    cases m with
    | nil => rfl
    | cons c m' => simp [sat] at h
  | cons p ps ih =>
    intro m h
    cases m with
    | nil => simp [sat] at h
    | cons c m' =>
      simp only [sat, Bool.and_eq_true] at h
      simp [ih m' h.2]

theorem matchAlts_sat (cs m : List Char) (h : matchAlts cs = some m) :
    sat alt1preds m = true ∨ sat alt2preds m = true ∨ sat alt3preds m = true := by
  unfold matchAlts at h
  cases h1 : matchSeq alt1preds cs with
  | some mr =>
    obtain ⟨m1, r1⟩ := mr
    rw [h1] at h
    simp only [Option.some.injEq] at h
    subst h
    exact Or.inl (matchSeq_spec _ _ _ _ h1).2
  | none =>
    rw [h1] at h
    cases h2 : matchSeq alt2preds cs with
    | some mr =>
      obtain ⟨m2, r2⟩ := mr
      rw [h2] at h
      simp only [Option.some.injEq] at h
      subst h
      exact Or.inr (Or.inl (matchSeq_spec _ _ _ _ h2).2)
    | none =>
      rw [h2] at h
      cases h3 : matchSeq alt3preds cs with
      | some mr =>
        obtain ⟨m3, r3⟩ := mr
        rw [h3] at h
        simp only [Option.some.injEq] at h
        subst h
        exact Or.inr (Or.inr (matchSeq_spec _ _ _ _ h3).2)
      | none => rw [h3] at h; exact absurd h (by simp)

theorem matchAlts_isSome_of_alt (cs m r : List Char)
    (h : matchSeq alt1preds cs = some (m, r) ∨ matchSeq alt2preds cs = some (m, r) ∨
         matchSeq alt3preds cs = some (m, r)) :
    (matchAlts cs).isSome := by
  unfold matchAlts
  cases h1 : matchSeq alt1preds cs with
  | some mr => simp
  | none =>
    cases h2 : matchSeq alt2preds cs with
    | some mr => simp
    | none =>
      cases h3 : matchSeq alt3preds cs with
      | some mr => simp
      | none =>
        rcases h with h | h | h <;> rw [h1] at * <;> rw [h2] at * <;> rw [h3] at * <;>
          simp_all

theorem reSearch_sat (cs : List Char) :
    ∀ m, reSearch cs = some m →
      sat alt1preds m = true ∨ sat alt2preds m = true ∨ sat alt3preds m = true := by
  induction cs with
  | nil => intro m h; simp [reSearch] at h
  | cons c cs' ih =>
    intro m h
    simp only [reSearch] at h
    cases ha : matchAlts (c :: cs') with
    | some m' =>
      rw [ha] at h
      simp only [Option.some.injEq] at h
      subst h
      exact matchAlts_sat _ _ ha
    | none =>
      rw [ha] at h
      exact ih m h

theorem reSearch_isSome_cons (c : Char) (cs : List Char)
    (h : (reSearch cs).isSome) : (reSearch (c :: cs)).isSome := by
  simp only [reSearch]
  cases ha : matchAlts (c :: cs) with
  | some m => simp
  | none => exact h

theorem reSearch_isSome_append (pre cs : List Char)
    (h : (reSearch cs).isSome) : (reSearch (pre ++ cs)).isSome := by
  induction pre with
  | nil => exact h
  | cons c pre' ih => exact reSearch_isSome_cons c (pre' ++ cs) ih

theorem reSearch_isSome_of_matchAlts (cs : List Char)
    (h : (matchAlts cs).isSome) : (reSearch cs).isSome := by
  cases cs with
  | nil =>
    exact absurd h (by simp [matchAlts, matchSeq, alt1preds, alt2preds, alt3preds])
  | cons c cs' =>
    simp only [reSearch]
    cases ha : matchAlts (c :: cs') with
    | some m => simp
    | none => rw [ha] at h; simp at h

theorem search_shapes (s t : String) (h : search s = some t) :
    isbn13Shape t = true ∨ asinBShape t = true ∨ nineDigitShape t = true := by
  unfold search at h
  cases hr : reSearch s.data with
  | none => rw [hr] at h; simp at h
  | some m =>
    rw [hr] at h
    simp only [Option.map_eq_some', Option.some.injEq] at h
    have ht : t = String.mk m := by
      cases h with
      | intro a ha =>
        obtain ⟨ha1, ha2⟩ := ha
        cases ha1
        exact ha2.symm
    subst ht
    exact reSearch_sat s.data m hr

theorem alts_lengths :
    alt1preds.length = 13 ∧ alt2preds.length = 10 ∧ alt3preds.length = 10 := by
  refine ⟨?_, ?_, ?_⟩ <;> simp [alt1preds, alt2preds, alt3preds]

theorem search_length (s t : String) (h : search s = some t) :
    t.length = 10 ∨ t.length = 13 := by
  have hl : t.length = t.data.length := rfl
  rcases search_shapes s t h with hs | hs | hs
  · right
    rw [hl, sat_length _ _ hs, alts_lengths.1]
  · left
    rw [hl, sat_length _ _ hs, alts_lengths.2.1]
  · left
    rw [hl, sat_length _ _ hs, alts_lengths.2.2]

theorem search_isSome_of_shape (s t : String) (pre suf : List Char)
    (hdecomp : s.data = pre ++ t.data ++ suf)
    (hshape : isbn13Shape t = true ∨ asinBShape t = true ∨ nineDigitShape t = true) :
    (search s).isSome := by
  unfold search
  rw [Option.isSome_map']
  rw [hdecomp, List.append_assoc]
  apply reSearch_isSome_append
  apply reSearch_isSome_of_matchAlts
  rcases hshape with hs | hs | hs
  · exact matchAlts_isSome_of_alt _ t.data suf (Or.inl (sat_matchSeq _ _ _ hs))
  · exact matchAlts_isSome_of_alt _ t.data suf (Or.inr (Or.inl (sat_matchSeq _ _ _ hs)))
  · exact matchAlts_isSome_of_alt _ t.data suf (Or.inr (Or.inr (sat_matchSeq _ _ _ hs)))

/-! ### Helper lemmas about the pipeline stages -/

theorem get_asinisbns_mem (ll : List (String × String)) :
    ∀ out, get_asinisbns ll = .ok out →
      ∀ q ∈ out, ∃ url, (q.1, url) ∈ ll ∧ search url = some q.2 := by
  induction ll with
  | nil =>
    intro out h q hq
    simp only [get_asinisbns] at h
    cases h
    simp at hq
  | cons p rest ih =>
    intro out h q hq
    obtain ⟨link, longlink⟩ := p
    simp only [get_asinisbns] at h
    cases hs : search longlink with
    | none => rw [hs] at h; cases h
    | some m =>
      rw [hs] at h
      cases hrec : get_asinisbns rest with
      | error e => rw [hrec] at h; cases h
      | ok out' =>
        rw [hrec] at h
        simp only [Except.ok.injEq] at h
        subst h
        rcases List.mem_cons.mp hq with hq1 | hq2
        · subst hq1
          exact ⟨longlink, List.mem_cons_self .., hs⟩
        · obtain ⟨url, hmem, hurl⟩ := ih out' hrec q hq2
          exact ⟨url, List.mem_cons_of_mem _ hmem, hurl⟩

theorem get_asinisbns_mem_of (ll : List (String × String)) :
    ∀ out, get_asinisbns ll = .ok out →
      ∀ link url m, (link, url) ∈ ll → search url = some m → (link, m) ∈ out := by
  induction ll with
  | nil =>
    intro out h link url m hmem
    simp at hmem
  | cons p rest ih =>
    intro out h link url m hmem hsearch
    obtain ⟨link0, longlink0⟩ := p
    simp only [get_asinisbns] at h
    cases hs : search longlink0 with
    | none => rw [hs] at h; cases h
    | some m0 =>
      rw [hs] at h
      cases hrec : get_asinisbns rest with
      | error e => rw [hrec] at h; cases h
      | ok out' =>
        rw [hrec] at h
        simp only [Except.ok.injEq] at h
        subst h
        rcases List.mem_cons.mp hmem with hq1 | hq2
        · obtain ⟨h1, h2⟩ := Prod.mk.injEq .. ▸ hq1
          subst h1; subst h2
          rw [hsearch] at hs
          cases hs
          exact List.mem_cons_self ..
        · exact List.mem_cons_of_mem _ (ih out' hrec link url m hq2 hsearch)

theorem get_inputs_asin (l : List (String × String)) :
    (get_inputs l).asin = l.filter (fun p => p.2.length = 10) := by
  induction l with
  | nil => rfl
  | cons p rest ih =>
    simp only [get_inputs, List.filter_cons]
    by_cases h10 : p.2.length = 10
    · simp [h10, ih]
    · by_cases h13 : p.2.length = 13
      · simp [h10, h13, ih]
      · simp [h10, h13, ih]

theorem get_inputs_isbn (l : List (String × String)) :
    (get_inputs l).isbn = l.filter (fun p => p.2.length = 13) := by
  induction l with
  | nil => rfl
  | cons p rest ih =>
    simp only [get_inputs, List.filter_cons]
    by_cases h10 : p.2.length = 10
    · have h13 : ¬ p.2.length = 13 := by omega
      simp [h10, h13, ih]
    · by_cases h13 : p.2.length = 13
      · simp [h10, h13, ih]
      · simp [h10, h13, ih]

theorem dictOf_step (l : List (String × String)) (p : String × String) (k : String) :
    dictOf (l ++ [p]) k = if k = p.1 then some p.2 else dictOf l k := by
  unfold dictOf
  rw [List.foldl_append]
  rfl

theorem dictOf_mem (l : List (String × String)) :
    ∀ k v, dictOf l k = some v → (k, v) ∈ l := by
  induction l using List.reverseRecOn with
  | nil => intro k v h; simp [dictOf] at h
  | append_singleton l p ih =>
    intro k v h
    rw [dictOf_step] at h
    by_cases hk : k = p.1
    · rw [if_pos hk] at h
      simp only [Option.some.injEq] at h
      subst h; subst hk
      simp
    · rw [if_neg hk] at h
      exact List.mem_append_left _ (ih k v h)

theorem dictOf_isSome (l : List (String × String)) :
    ∀ k v, (k, v) ∈ l → (dictOf l k).isSome := by
  induction l using List.reverseRecOn with
  | nil => intro k v h; simp at h
  | append_singleton l p ih =>
    intro k v h
    rw [dictOf_step]
    by_cases hk : k = p.1
    · simp [hk]
    · rw [if_neg hk]
      rcases List.mem_append.mp h with h1 | h2
      · exact ih k v h1
      · simp only [List.mem_singleton] at h2
        subst h2
        exact absurd rfl hk

theorem resolveOne_fst (cache net : String → Option String) (link : String)
    (p : String × String) (h : resolveOne cache net link = some p) : p.1 = link := by
  unfold resolveOne at h
  cases hc : cache link with
  | some v => rw [hc] at h; simp only [Option.some.injEq] at h; subst h; rfl
  | none =>
    rw [hc] at h
    cases hn : net link with
    | some v => rw [hn] at h; simp only [Option.some.injEq] at h; subst h; rfl
    | none => rw [hn] at h; cases h

theorem resolveOne_cache_hit (cache net : String → Option String) (link v : String)
    (h : cache link = some v) : resolveOne cache net link = some (link, v) := by
  unfold resolveOne
  rw [h]

theorem mem_pairs_iff (link_list : List String) (cache net : String → Option String)
    (p : String × String) :
    p ∈ (get_long_links link_list cache net).pairs ↔
      ∃ link ∈ link_list, resolveOne cache net link = some p := by
  unfold get_long_links
  simp only [List.mem_filterMap]

theorem cacheOut_eq (link_list : List String) (cache net : String → Option String)
    (k : String) :
    (get_long_links link_list cache net).cacheOut k =
      match dictOf (get_long_links link_list cache net).pairs k with
      | some v => some v
      | none => cache k := rfl

theorem get_metadata_mem (runQuery : String → List AvalonRow)
    (id_tuple : List (String × String)) (id_type : String)
    (rows : List MetaRow) (h : get_metadata runQuery id_tuple id_type = .ok rows) :
    ∀ row ∈ rows, (row.link, row.id) ∈ id_tuple ∧ colVal row.attrs id_type = row.id := by
  intro row hrow
  unfold get_metadata at h
  by_cases ht : id_type ∈ id_types
  · rw [if_pos ht] at h
    simp only [Except.ok.injEq] at h
    subst h
    simp only [List.mem_flatMap, List.mem_map, List.mem_filter] at hrow
    obtain ⟨p, hp, r, ⟨hrmem, hrcol⟩, hrow⟩ := hrow
    subst hrow
    simp only
    refine ⟨hp, ?_⟩
    exact of_decide_eq_true hrcol
  · rw [if_neg ht] at h
    cases h

theorem resolveOne_of_mem_pairs (link_list : List String)
    (cache net : String → Option String) (p : String × String)
    (h : p ∈ (get_long_links link_list cache net).pairs) :
    resolveOne cache net p.1 = some p := by
  obtain ⟨link, _, hr⟩ := (mem_pairs_iff link_list cache net p).mp h
  have hfst := resolveOne_fst cache net link p hr
  rw [hfst]
  exact hr

theorem cacheOut_preserved (link_list : List String)
    (cache net : String → Option String) (k v : String) (h : cache k = some v) :
    (get_long_links link_list cache net).cacheOut k = some v := by
  rw [cacheOut_eq]
  cases hd : dictOf (get_long_links link_list cache net).pairs k with
  | none => exact h
  | some w =>
    have hmem := dictOf_mem _ k w hd
    have hres := resolveOne_of_mem_pairs link_list cache net (k, w) hmem
    rw [resolveOne_cache_hit cache net k v h] at hres
    simp only [Option.some.injEq, Prod.mk.injEq] at hres
    rw [hres.2]

theorem cacheOut_none (link_list : List String)
    (cache net : String → Option String) (link : String)
    (hc : cache link = none) (hn : net link = none) :
    (get_long_links link_list cache net).cacheOut link = none := by
  rw [cacheOut_eq]
  cases hd : dictOf (get_long_links link_list cache net).pairs link with
  | none => exact hc
  | some w =>
    have hmem := dictOf_mem _ link w hd
    have hres := resolveOne_of_mem_pairs link_list cache net (link, w) hmem
    unfold resolveOne at hres
    rw [hc, hn] at hres
    cases hres

theorem resolveOne_cacheOut (link_list : List String)
    (cache net : String → Option String) (link : String) (hmem : link ∈ link_list) :
    resolveOne (get_long_links link_list cache net).cacheOut net link =
      resolveOne cache net link := by
  cases hc : cache link with
  | some v =>
    rw [resolveOne_cache_hit _ net link v (cacheOut_preserved link_list cache net link v hc),
        resolveOne_cache_hit _ net link v hc]
  | none =>
    cases hn : net link with
    | some u =>
      have hres : resolveOne cache net link = some (link, u) := by
        unfold resolveOne
        rw [hc, hn]
      have hpair : (link, u) ∈ (get_long_links link_list cache net).pairs :=
        (mem_pairs_iff link_list cache net (link, u)).mpr ⟨link, hmem, hres⟩
      have hdict : (dictOf (get_long_links link_list cache net).pairs link).isSome :=
        dictOf_isSome _ link u hpair
      cases hd : dictOf (get_long_links link_list cache net).pairs link with
      | none => rw [hd] at hdict; cases hdict
      | some w =>
        have hw := resolveOne_of_mem_pairs link_list cache net (link, w)
          (dictOf_mem _ link w hd)
        rw [hres] at hw
        simp only [Option.some.injEq, Prod.mk.injEq] at hw
        have hcache2 : (get_long_links link_list cache net).cacheOut link = some u := by
          rw [cacheOut_eq, hd, hw.2]
        rw [resolveOne_cache_hit _ net link u hcache2, hres]
    | none =>
      have h2 := cacheOut_none link_list cache net link hc hn
      unfold resolveOne
      rw [h2, hc, hn]

/-! ### Claims -/

/-- C1: the claim says a (link, resolved_url) pair whose resolved_url has no
regex match is dropped and processing continues.  The code is a slip: it
guards `match[0]` with `except IndexError`, but `re.search` returns None on
no match and `None[0]` raises TypeError, which that handler does not catch,
so the call aborts instead of dropping the pair.  This theorem evaluates the
embedded extractor at the failing input: the pair ("l", "zzz") has no match
and the whole call raises TypeError rather than returning the empty list. -/
theorem c1_nomatch_raises_typeerror :
    get_asinisbns [("l", "zzz")] = .error .typeError := by rfl

/-- C2 counterexample: the claim asserts the regex matches any generic
10-character alphanumeric token, so a URL consisting of the 10-character
alphanumeric string "XXXXXXXXXX" should yield an identifier.  It does not:
the third alternative of the regex is 9 digits followed by one [A-Z0-9],
not a generic alphanumeric token, so re.search finds no match there. -/
theorem c2_counterexample :
    ("XXXXXXXXXX" : String).length = 10 ∧
    "XXXXXXXXXX".data.all Char.isAlphanum = true ∧
    search "XXXXXXXXXX" = none ∧
    get_asinisbns [("link", "XXXXXXXXXX")] = .error .typeError := by
  refine ⟨rfl, rfl, rfl, rfl⟩

/-- C2 (amended): the extraction regex matches exactly a 13-digit sequence
starting with 978, or "B" followed by 9 uppercase-alphanumeric characters,
or 9 digits followed by one uppercase-alphanumeric character; every match
of `search` has one of these three shapes, and every URL containing a
substring of one of these shapes yields a match. -/
theorem c2_amended_regex_characterization :
    (∀ s t : String, search s = some t →
      isbn13Shape t = true ∨ asinBShape t = true ∨ nineDigitShape t = true) ∧
    (∀ (s t : String) (pre suf : List Char), s.data = pre ++ t.data ++ suf →
      (isbn13Shape t = true ∨ asinBShape t = true ∨ nineDigitShape t = true) →
      (search s).isSome) :=
  ⟨search_shapes, search_isSome_of_shape⟩

/-- C2 witness: the amended characterization applied at concrete inputs. -/
theorem c2_amended_witness :
    (isbn13Shape "9780143127741" = true ∨ asinBShape "9780143127741" = true ∨
      nineDigitShape "9780143127741" = true) ∧
    (search "xyzB123456789").isSome := by
  constructor
  · exact c2_amended_regex_characterization.1 "9780143127741" "9780143127741" rfl
  · exact c2_amended_regex_characterization.2 "xyzB123456789" "B123456789"
      [Char.ofNat 120, Char.ofNat 121, Char.ofNat 122] [] (by decide)
      (Or.inr (Or.inl (by decide)))

/-- C4: the classifier partitions purely by identifier length, preserving
input order: the asin group is exactly the in-order sublist of pairs with a
10-character identifier, the isbn group exactly that with 13, and every
input pair lands in exactly one of asin group, isbn group, or dropped. -/
theorem c4_classifier_partition (l : List (String × String)) :
    (get_inputs l).asin = l.filter (fun p => p.2.length = 10) ∧
    (get_inputs l).isbn = l.filter (fun p => p.2.length = 13) ∧
    ∀ p ∈ l,
      (p.2.length = 10 ∧ p ∈ (get_inputs l).asin ∧ p ∉ (get_inputs l).isbn) ∨
      (p.2.length = 13 ∧ p ∈ (get_inputs l).isbn ∧ p ∉ (get_inputs l).asin) ∨
      (p.2.length ≠ 10 ∧ p.2.length ≠ 13 ∧
        p ∉ (get_inputs l).asin ∧ p ∉ (get_inputs l).isbn) := by
  refine ⟨get_inputs_asin l, get_inputs_isbn l, ?_⟩
  intro p hp
  rw [get_inputs_asin, get_inputs_isbn]
  by_cases h10 : p.2.length = 10
  · left
    refine ⟨h10, List.mem_filter.mpr ⟨hp, by simp [h10]⟩, ?_⟩
    intro hmem
    have := (List.mem_filter.mp hmem).2
    simp [h10] at this
  · by_cases h13 : p.2.length = 13
    · right; left
      refine ⟨h13, List.mem_filter.mpr ⟨hp, by simp [h13]⟩, ?_⟩
      intro hmem
      have := (List.mem_filter.mp hmem).2
      simp [h13] at this
    · right; right
      refine ⟨h10, h13, ?_, ?_⟩ <;> intro hmem <;>
        have := (List.mem_filter.mp hmem).2 <;> simp_all

/-- C4 witness: the partition property applied to a concrete pair list. -/
theorem c4_witness :
    ((("l", "AAAAAAAAAA") : String × String).2.length = 10 ∧
      ("l", "AAAAAAAAAA") ∈ (get_inputs [("l", "AAAAAAAAAA")]).asin ∧
      ("l", "AAAAAAAAAA") ∉ (get_inputs [("l", "AAAAAAAAAA")]).isbn) ∨
    ((("l", "AAAAAAAAAA") : String × String).2.length = 13 ∧
      ("l", "AAAAAAAAAA") ∈ (get_inputs [("l", "AAAAAAAAAA")]).isbn ∧
      ("l", "AAAAAAAAAA") ∉ (get_inputs [("l", "AAAAAAAAAA")]).asin) ∨
    ((("l", "AAAAAAAAAA") : String × String).2.length ≠ 10 ∧
      (("l", "AAAAAAAAAA") : String × String).2.length ≠ 13 ∧
      ("l", "AAAAAAAAAA") ∉ (get_inputs [("l", "AAAAAAAAAA")]).asin ∧
      ("l", "AAAAAAAAAA") ∉ (get_inputs [("l", "AAAAAAAAAA")]).isbn) :=
  (c4_classifier_partition [("l", "AAAAAAAAAA")]).2.2 ("l", "AAAAAAAAAA")
    (List.mem_singleton.mpr rfl)

/-- C9: every identifier produced by the extractor has length exactly 10 or
exactly 13, and consequently every extracted pair lands in one of the two
classifier groups - the drop branch is unreachable on extractor output. -/
theorem c9_extracted_length_safe (ll out : List (String × String))
    (h : get_asinisbns ll = .ok out) :
    ∀ p ∈ out, (p.2.length = 10 ∨ p.2.length = 13) ∧
      (p ∈ (get_inputs out).asin ∨ p ∈ (get_inputs out).isbn) := by
  intro p hp
  obtain ⟨url, _, hsearch⟩ := get_asinisbns_mem ll out h p hp
  have hlen := search_length url p.2 hsearch
  refine ⟨hlen, ?_⟩
  rcases hlen with h10 | h13
  · left
    rw [get_inputs_asin]
    exact List.mem_filter.mpr ⟨hp, by simp [h10]⟩
  · right
    rw [get_inputs_isbn]
    exact List.mem_filter.mpr ⟨hp, by simp [h13]⟩

/-- C9 witness: the length-safety property applied to a concrete run of the
extractor. -/
theorem c9_witness :
    ((("l", "9780143127741") : String × String).2.length = 10 ∨
      (("l", "9780143127741") : String × String).2.length = 13) ∧
    (("l", "9780143127741") ∈ (get_inputs [("l", "9780143127741")]).asin ∨
      ("l", "9780143127741") ∈ (get_inputs [("l", "9780143127741")]).isbn) :=
  c9_extracted_length_safe [("l", "x/9780143127741")] [("l", "9780143127741")]
    (by rfl) ("l", "9780143127741") (List.mem_singleton.mpr rfl)

/-- C5 counterexample: the claim is false as stated.  The resolved URL
"1234567899780000000000" contains the 13-digit string "9780000000000"
beginning with 978, but re.search returns the leftmost match, which at
position 0 is "1234567899" (9 digits followed by one [A-Z0-9]); the link
is therefore classified into the ASIN group, not the ISBN group. -/
theorem c5_counterexample :
    ("1234567899780000000000" : String) = "123456789" ++ "9780000000000" ∧
    isbn13Shape "9780000000000" = true ∧
    get_asinisbns [("l", "1234567899780000000000")] = .ok [("l", "1234567899")] ∧
    (get_inputs [("l", "1234567899")]).isbn = [] ∧
    (get_inputs [("l", "1234567899")]).asin = [("l", "1234567899")] := by
  refine ⟨rfl, by decide, rfl, rfl, rfl⟩

/-- C5 (amended): round trip through extractor and classifier, restated
for the token the regex actually matches: whenever extraction of the whole
batch succeeds and the first regex match in a link's resolved URL is a
13-digit string beginning 978, that link is classified into the ISBN
group; when the first match is "B" followed by 9 uppercase-alphanumeric
characters, it is classified into the ASIN group. -/
theorem c5_amended_roundtrip (ll out : List (String × String)) (link url m : String)
    (hok : get_asinisbns ll = .ok out) (hmem : (link, url) ∈ ll)
    (hsearch : search url = some m) :
    (isbn13Shape m = true → (link, m) ∈ (get_inputs out).isbn) ∧
    (asinBShape m = true → (link, m) ∈ (get_inputs out).asin) := by
  have hout : (link, m) ∈ out := get_asinisbns_mem_of ll out hok link url m hmem hsearch
  constructor
  · intro hshape
    rw [get_inputs_isbn]
    refine List.mem_filter.mpr ⟨hout, ?_⟩
    have hlen : m.length = 13 := by
      rw [show m.length = m.data.length from rfl, sat_length _ _ hshape, alts_lengths.1]
    simp [hlen]
  · intro hshape
    rw [get_inputs_asin]
    refine List.mem_filter.mpr ⟨hout, ?_⟩
    have hlen : m.length = 10 := by
      rw [show m.length = m.data.length from rfl, sat_length _ _ hshape, alts_lengths.2.1]
    simp [hlen]

/-- C5 witness: the amended round trip applied to two concrete links, one
whose resolved URL first-matches an ISBN-13 token and one whose resolved
URL first-matches a B-prefixed ASIN token. -/
theorem c5_witness :
    ("a", "9780143127741") ∈
      (get_inputs [("a", "9780143127741"), ("b", "B012345678")]).isbn ∧
    ("b", "B012345678") ∈
      (get_inputs [("a", "9780143127741"), ("b", "B012345678")]).asin := by
  constructor
  · exact (c5_amended_roundtrip [("a", "x/9780143127741"), ("b", "x/B012345678")]
      [("a", "9780143127741"), ("b", "B012345678")] "a" "x/9780143127741"
      "9780143127741" (by rfl) (by simp) (by rfl)).1 (by decide)
  · exact (c5_amended_roundtrip [("a", "x/9780143127741"), ("b", "x/B012345678")]
      [("a", "9780143127741"), ("b", "B012345678")] "b" "x/B012345678"
      "B012345678" (by rfl) (by simp) (by rfl)).2 (by decide)

/-- C6: get_metadata called with a type tag other than "ASIN" or "ISBN_13"
raises ValueError; the result is .error valueError for every possible
warehouse oracle, so no query is built or executed on that path; for the
two recognized tags no ValueError is raised (the call returns ok). -/
theorem c6_metadata_tag_check (runQuery : String → List AvalonRow)
    (id_tuple : List (String × String)) (id_type : String)
    (h : id_type ∉ id_types) :
    get_metadata runQuery id_tuple id_type = .error .valueError ∧
    (∃ rows, get_metadata runQuery id_tuple "ASIN" = .ok rows) ∧
    (∃ rows, get_metadata runQuery id_tuple "ISBN_13" = .ok rows) := by
  refine ⟨?_, ?_, ?_⟩
  · unfold get_metadata
    rw [if_neg h]
  · unfold get_metadata
    rw [if_pos (by simp [id_types])]
    exact ⟨_, rfl⟩
  · unfold get_metadata
    rw [if_pos (by simp [id_types])]
    exact ⟨_, rfl⟩

/-- C6 witness: the tag check applied to the unrecognized tag "UPC" with a
concrete warehouse oracle and group. -/
theorem c6_witness :
    get_metadata (fun _ => []) [("l", "0123456789")] "UPC" = .error .valueError ∧
    (∃ rows, get_metadata (fun _ => []) [("l", "0123456789")] "ASIN" = .ok rows) ∧
    (∃ rows, get_metadata (fun _ => []) [("l", "0123456789")] "ISBN_13" = .ok rows) :=
  c6_metadata_tag_check (fun _ => []) [("l", "0123456789")] "UPC" (by simp [id_types])

/-- C7: a link absent from the cache whose resolution request fails yields
no output pair, is absent from the persisted cache, and every previously
cached entry is preserved unchanged in the persisted cache. -/
theorem c7_failed_link_skipped (link_list : List String)
    (cache net : String → Option String) (link : String)
    (hc : cache link = none) (hn : net link = none) :
    (∀ p ∈ (get_long_links link_list cache net).pairs, p.1 ≠ link) ∧
    (get_long_links link_list cache net).cacheOut link = none ∧
    (∀ k v, cache k = some v → (get_long_links link_list cache net).cacheOut k = some v) := by
  refine ⟨?_, cacheOut_none link_list cache net link hc hn,
    fun k v hv => cacheOut_preserved link_list cache net k v hv⟩
  intro p hp heq
  have hres := resolveOne_of_mem_pairs link_list cache net p hp
  rw [heq] at hres
  unfold resolveOne at hres
  rw [hc, hn] at hres
  cases hres

/-- C7 witness: a concrete failing link among a successful one, with a
warm cache entry that must be preserved. -/
theorem c7_witness :
    (∀ p ∈ (get_long_links ["good", "bad"]
        (fun k => if k = "warm" then some "warmurl" else none)
        (fun k => if k = "good" then some "goodurl" else none)).pairs,
      p.1 ≠ "bad") ∧
    (get_long_links ["good", "bad"]
        (fun k => if k = "warm" then some "warmurl" else none)
        (fun k => if k = "good" then some "goodurl" else none)).cacheOut "bad" = none ∧
    (∀ k v, (fun k => if k = "warm" then some "warmurl" else none) k = some v →
      (get_long_links ["good", "bad"]
        (fun k => if k = "warm" then some "warmurl" else none)
        (fun k => if k = "good" then some "goodurl" else none)).cacheOut k = some v) :=
  c7_failed_link_skipped ["good", "bad"]
    (fun k => if k = "warm" then some "warmurl" else none)
    (fun k => if k = "good" then some "goodurl" else none) "bad" (by simp) (by simp)

theorem pairs_eq (link_list : List String) (cache net : String → Option String) :
    (get_long_links link_list cache net).pairs =
      link_list.filterMap (resolveOne cache net) := rfl

theorem requested_eq (link_list : List String) (cache net : String → Option String) :
    (get_long_links link_list cache net).requested =
      link_list.filter (fun link => (cache link).isNone) := rfl

/-- C8 counterexample: the claim asserts a second resolver run from the
persisted cache issues no additional network requests.  A link that fails
resolution is not persisted, so the second run re-issues its request: with
input ["bad"], an empty starting cache and a network on which "bad" fails,
the second run (started from the cache the first run persisted) issues the
request for "bad" again. -/
theorem c8_counterexample :
    (get_long_links ["bad"]
      (get_long_links ["bad"] (fun _ => none) (fun _ => none)).cacheOut
      (fun _ => none)).requested = ["bad"] ∧
    (["bad"] : List String) ≠ [] := by
  refine ⟨rfl, by simp⟩

/-- C8 (amended): running the resolver twice on the same input against the
same network, the second run starting from the cache persisted by the
first, produces the identical sequence of (link, resolved_url) pairs, and
the second run issues network requests only for links the first run failed
to resolve (absent from the starting cache and failing on the network); in
particular, if every input link resolved in the first run, the second run
issues no network requests. -/
theorem c8_amended_idempotence (link_list : List String)
    (cache net : String → Option String) :
    ((get_long_links link_list (get_long_links link_list cache net).cacheOut net).pairs =
      (get_long_links link_list cache net).pairs) ∧
    (∀ link ∈ (get_long_links link_list
        (get_long_links link_list cache net).cacheOut net).requested,
      cache link = none ∧ net link = none) ∧
    ((∀ link ∈ link_list, (resolveOne cache net link).isSome) →
      (get_long_links link_list
        (get_long_links link_list cache net).cacheOut net).requested = []) := by
  have hmemreq : ∀ link ∈ (get_long_links link_list
      (get_long_links link_list cache net).cacheOut net).requested,
      cache link = none ∧ net link = none := by
    intro link hmem
    rw [requested_eq] at hmem
    obtain ⟨hlink, hnone⟩ := List.mem_filter.mp hmem
    simp only [Option.isNone_iff_eq_none, decide_eq_true_eq] at hnone
    have hc : cache link = none := by
      cases hcv : cache link with
      | none => rfl
      | some v =>
        rw [cacheOut_preserved link_list cache net link v hcv] at hnone
        cases hnone
    refine ⟨hc, ?_⟩
    cases hnv : net link with
    | none => rfl
    | some u =>
      have hres : resolveOne cache net link = some (link, u) := by
        unfold resolveOne
        rw [hc, hnv]
      have hpair : (link, u) ∈ (get_long_links link_list cache net).pairs :=
        (mem_pairs_iff link_list cache net (link, u)).mpr ⟨link, hlink, hres⟩
      have hdict := dictOf_isSome _ link u hpair
      cases hd : dictOf (get_long_links link_list cache net).pairs link with
      | none => rw [hd] at hdict; cases hdict
      | some w =>
        rw [cacheOut_eq, hd] at hnone
        cases hnone
  refine ⟨?_, hmemreq, ?_⟩
  · rw [pairs_eq, pairs_eq]
    exact List.filterMap_congr fun link hl =>
      resolveOne_cacheOut link_list cache net link hl
  · intro hall
    rw [List.eq_nil_iff_forall_not_mem]
    intro link hmem
    obtain ⟨hc, hn⟩ := hmemreq link hmem
    rw [requested_eq] at hmem
    have hlink := (List.mem_filter.mp hmem).1
    have hsome := hall link hlink
    unfold resolveOne at hsome
    rw [hc, hn] at hsome
    cases hsome

/-- C8 witness: the amended idempotence applied to a concrete run with one
resolvable link, where the second run issues no requests. -/
theorem c8_witness :
    ((get_long_links ["good"]
        (get_long_links ["good"] (fun _ => none)
          (fun k => if k = "good" then some "goodurl" else none)).cacheOut
        (fun k => if k = "good" then some "goodurl" else none)).pairs =
      (get_long_links ["good"] (fun _ => none)
        (fun k => if k = "good" then some "goodurl" else none)).pairs) ∧
    ((get_long_links ["good"]
        (get_long_links ["good"] (fun _ => none)
          (fun k => if k = "good" then some "goodurl" else none)).cacheOut
        (fun k => if k = "good" then some "goodurl" else none)).requested = []) := by
  have h := c8_amended_idempotence ["good"] (fun _ => none)
    (fun k => if k = "good" then some "goodurl" else none)
  refine ⟨h.1, h.2.2 ?_⟩
  intro link hlink
  rw [List.mem_singleton] at hlink
  subst hlink
  rw [show resolveOne (fun _ => none)
    (fun k => if k = "good" then some "goodurl" else none) "good" =
      some ("good", "goodurl") from rfl]
  rfl

set_option maxRecDepth 8192 in
/-- C10: the metadata fetcher has an undocumented non-emptiness
precondition: called on the empty identifier group with the recognized tag
"ASIN" it passes the tag check (no ValueError; it returns ok), formats the
filter as the empty Python tuple "()", and the query string it builds
contains "in ()", which is malformed SQL. -/
theorem c10_empty_group_malformed_query (runQuery : String → List AvalonRow) :
    pyTupleStr [] = "()" ∧
    get_metadata runQuery [] "ASIN" = .ok [] ∧
    ∃ a b, q_fmt "ASIN" (pyTupleStr []) = a ++ "in ()" ++ b := by
  refine ⟨rfl, ?_, ⟨q_head ++ "ASIN ", "\n    ", ?_⟩⟩
  · unfold get_metadata
    rw [if_pos (by simp [id_types])]
    rfl
  · rfl

theorem metadata_branch_mem (runQuery : String → List AvalonRow)
    (group : List (String × String)) (t : String) (df : List MetaRow)
    (h : (if group.length > 0 then get_metadata runQuery group t else .ok []) = .ok df) :
    ∀ row ∈ df, (row.link, row.id) ∈ group ∧ colVal row.attrs t = row.id := by
  by_cases hc : group.length > 0
  · rw [if_pos hc] at h
    exact get_metadata_mem runQuery group t df h
  · rw [if_neg hc] at h
    simp only [Except.ok.injEq] at h
    subst h
    intro row hrow
    exact absurd hrow (List.not_mem_nil row)

/-- C3: every row of a result table produced by the pipeline traces back to
an input link: its link is drawn from the input list, that link resolved
successfully to a URL whose first regex match is exactly the row's
identifier, and the warehouse result contains a row matching that
identifier in the column it was queried on (inner join) - so links that
fail resolution, extraction or warehouse lookup contribute no row, and no
error row exists. -/
theorem c3_output_links_trace_back (link_list : List String)
    (cache net : String → Option String) (runQuery : String → List AvalonRow)
    (df : List MetaRow) (h : url_to_metadata.get link_list cache net runQuery = .ok df) :
    ∀ row ∈ df,
      row.link ∈ link_list ∧
      (∃ longlink, resolveOne cache net row.link = some (row.link, longlink) ∧
        search longlink = some row.id) ∧
      colVal row.attrs (if row.id.length = 10 then "ASIN" else "ISBN_13") = row.id := by
  unfold url_to_metadata.get at h
  dsimp only at h
  cases hl2 : get_asinisbns (get_long_links link_list cache net).pairs with
  | error e => rw [hl2] at h; cases h
  | ok l2 =>
    rw [hl2] at h
    dsimp only at h
    cases hA : (if (get_inputs l2).asin.length > 0 then
        get_metadata runQuery (get_inputs l2).asin "ASIN" else .ok []) with
    | error e => rw [hA] at h; cases h
    | ok df_asin =>
      rw [hA] at h
      dsimp only at h
      cases hB : (if (get_inputs l2).isbn.length > 0 then
          get_metadata runQuery (get_inputs l2).isbn "ISBN_13" else .ok []) with
      | error e => rw [hB] at h; cases h
      | ok df_isbn =>
        rw [hB] at h
        simp only [Except.ok.injEq] at h
        subst h
        intro row hrow
        have trace : (row.link, row.id) ∈ l2 →
            row.link ∈ link_list ∧
            ∃ longlink, resolveOne cache net row.link = some (row.link, longlink) ∧
              search longlink = some row.id := by
          intro hl2mem
          obtain ⟨url, hpair, hsearch⟩ :=
            get_asinisbns_mem _ l2 hl2 (row.link, row.id) hl2mem
          obtain ⟨link', hlink', hres'⟩ :=
            (mem_pairs_iff link_list cache net (row.link, url)).mp hpair
          have hfst := resolveOne_fst cache net link' (row.link, url) hres'
          simp only at hfst
          subst hfst
          exact ⟨hlink', url, hres', hsearch⟩
        rcases List.mem_append.mp hrow with hmem | hmem
        · obtain ⟨hgrp, hcol⟩ := metadata_branch_mem runQuery _ _ _ hA row hmem
          rw [get_inputs_asin] at hgrp
          obtain ⟨hl2mem, hdec⟩ := List.mem_filter.mp hgrp
          have hlen : row.id.length = 10 := by simpa using hdec
          obtain ⟨hlink, htr⟩ := trace hl2mem
          refine ⟨hlink, htr, ?_⟩
          rw [if_pos hlen]
          exact hcol
        · obtain ⟨hgrp, hcol⟩ := metadata_branch_mem runQuery _ _ _ hB row hmem
          rw [get_inputs_isbn] at hgrp
          obtain ⟨hl2mem, hdec⟩ := List.mem_filter.mp hgrp
          have hlen : row.id.length = 13 := by simpa using hdec
          obtain ⟨hlink, htr⟩ := trace hl2mem
          refine ⟨hlink, htr, ?_⟩
          rw [if_neg (by omega)]
          exact hcol

/-- C3 witness: the trace-back invariant applied to a concrete end-to-end
run producing one joined row. -/
theorem c3_witness :
    ({ link := "L", id := "9780143127741",
       attrs := ⟨"9780143127741", "", "t", "a", "d", "g", "s", "dv"⟩ } : MetaRow).link
      ∈ ["L"] :=
  (c3_output_links_trace_back ["L"] (fun _ => none)
    (fun k => if k = "L" then some "x/9780143127741" else none)
    (fun _ => [⟨"9780143127741", "", "t", "a", "d", "g", "s", "dv"⟩])
    [⟨"L", "9780143127741", ⟨"9780143127741", "", "t", "a", "d", "g", "s", "dv"⟩⟩]
    (by rfl)
    ⟨"L", "9780143127741", ⟨"9780143127741", "", "t", "a", "d", "g", "s", "dv"⟩⟩
    (List.mem_singleton.mpr rfl)).1
